import Mathlib

/-!
# Notification endpoint model and codec: a verification development

Shallow embedding of the notification-endpooint subsystem:

* the `Slack` variant (`notification/endpoint`, source file `part_000`),
* the HTTP-facing handlers, client service and client codec
  (`http/notification_endpoint.go`),
* parts of the `influxdb` root package (`EndpointBase`, `SecretField`,
  `endpoint.UnmarshalJSON`, the `HTTP` variant, the endpoints service) whose
  source is not part of this excerpt; those are modelled from the spec and
  carry a doc comment saying so.

Go conventions mapped to Lean: `*string` becomes `Option String`;
`influxdb.ID` is modelled by its canonical string form (the zero / invalid ID
renders as the empty string, exactly as `ID.String()` does); `time.Time`
values are opaque strings (RFC3339 text round-trips losslessly through the
wire); JSON values are the inductive `JVal` below, with objects as
association lists.
-/

/-- A JSON value, restricted to the shapes this wire format uses:
strings and objects. -/
inductive JVal where
  | str (s : String)
  | obj (fields : List (String × JVal))

/-- The member list of a JSON value (`[]` for a non-object). -/
def JVal.fields : JVal → List (String × JVal)
  | .obj l => l
  | .str _ => []

/-- Look a member up in a JSON object. -/
def JVal.get (j : JVal) (k : String) : Option JVal :=
  j.fields.lookup k

/-- Look a member up and require it to be a string. -/
def JVal.getStr (j : JVal) (k : String) : Option String :=
  match j.fields.lookup k with
  | some (.str s) => some s
  | _ => none

/-- Shared attributes of every variant (`influxdb.EndpointBase`).
Modelled from the spec: identifier, owning-organization identifier, name,
description, lifecycle status, creation timestamp, last-update timestamp
(spec, sections 3 and 6); the struct itself is not in this excerpt, only its
uses in `notification/endpoint` and `http/notification_endpoint.go`. -/
structure EndpointBase where
  id : String
  orgID : String
  name : String
  description : String
  status : String
  createdAt : String
  updatedAt : String
  deriving DecidableEq, Repr

/-- A secret reference pair (`influxdb.SecretField`): a store key and a
transient plaintext value (`*string`, hence optional).
Modelled from the spec (section 3); not in this excerpt. -/
structure SecretField where
  key : String
  value : Option String
  deriving DecidableEq, Repr

/-- `status.Valid() == nil`: the two lifecycle states the spec admits. -/
def statusValid (s : String) : Bool :=
  s = "active" || s = "inactive"

/-- `SecretField.MarshalJSON`, modelled from the spec (section 4.2 Encode):
the wire string is the empty string when no key is held, otherwise the
literal `"secret: " + key`; the plaintext value is never written. -/
def SecretField.MarshalJSON (sf : SecretField) : String :=
  if sf.key = "" then "" else "secret: " ++ sf.key

/-- `SecretField.UnmarshalJSON`, modelled from the spec (section 4.2 Decode):
the wire string populates `value`, and `key` is left empty — it is derived
later via backfill, never accepted from the wire. An empty wire string is
the zero value (no value held). -/
def SecretField.UnmarshalJSON (s : String) : SecretField :=
  if s = "" then { key := "", value := none } else { key := "", value := some s }

/-- One backfill step on a single secret field, the mechanism shared by
every variant (`Slack.BackfillSecretKeys`, source `part_000` lines 30-36):
if the key is empty and a value is held, the key becomes the endpoint
identifier string followed by the field's suffix; otherwise the field is
untouched. -/
def SecretField.backfillWith (idStr sfx : String) (sf : SecretField) : SecretField :=
  if sf.key = "" ∧ sf.value ≠ none then { key := idStr ++ sfx, value := sf.value } else sf

/-- The slack variant (`endpoint.Slack`, source `part_000`). -/
structure Slack where
  base : EndpointBase
  URL : String
  Token : SecretField
  deriving DecidableEq, Repr

/-- `slackTokenSuffix` (source `part_000` line 13). -/
def slackTokenSuffix : String := "-token"

/-- `Slack.BackfillSecretKeys` (source `part_000` lines 30-36). -/
def Slack.BackfillSecretKeys (s : Slack) : Slack :=
  { s with Token := s.Token.backfillWith s.base.id slackTokenSuffix }

/-- `Slack.SecretFields` (source `part_000` lines 38-45): the secret fields
currently holding a non-empty key. -/
def Slack.SecretFields (s : Slack) : List SecretField :=
  if s.Token.key ≠ "" then [s.Token] else []

/-- The generic HTTP-callback variant (`endpoint.HTTP`).
Modelled from the spec (section 3) and its wire shape in the handler tests
(`part_003`): URL, auth method, HTTP verb, content template, header map, and
secret fields token, username, password. -/
structure HTTPE where
  base : EndpointBase
  URL : String
  Headers : List (String × String)
  Token : SecretField
  Username : SecretField
  Password : SecretField
  AuthMethod : String
  Method : String
  ContentTemplate : String
  deriving DecidableEq, Repr

/-- `HTTP.BackfillSecretKeys`.
Modelled from the spec (sections 3 and 4.1): every secret field with a value
but no key gets the deterministic key `<endpointID>-<fieldSuffix>`, with
suffixes `-token`, `-username`, `-password`. -/
def HTTPE.BackfillSecretKeys (h : HTTPE) : HTTPE :=
  { h with
    Token := h.Token.backfillWith h.base.id "-token"
    Username := h.Username.backfillWith h.base.id "-username"
    Password := h.Password.backfillWith h.base.id "-password" }

/-- `HTTP.SecretFields`.
Modelled from the spec (section 4.1): the ordered sequence of secret fields
currently holding a non-empty key. -/
def HTTPE.SecretFields (h : HTTPE) : List SecretField :=
  (if h.Token.key ≠ "" then [h.Token] else [])
    ++ (if h.Username.key ≠ "" then [h.Username] else [])
    ++ (if h.Password.key ≠ "" then [h.Password] else [])

/-- The closed set of endpoint variants (spec, section 3). -/
inductive Endpoint where
  | slack (s : Slack)
  | http (h : HTTPE)
  deriving DecidableEq, Repr

/-- `Base()`: the shared mutable view of an endpoint. -/
def Endpoint.base : Endpoint → EndpointBase
  | .slack s => s.base
  | .http h => h.base

/-- The `type` discriminator string of a variant (`Slack.Type`,
source `part_000` lines 83-86, and its HTTP counterpart). -/
def Endpoint.typeStr : Endpoint → String
  | .slack _ => "slack"
  | .http _ => "http"

/-- `BackfillSecretKeys` lifted to the variant sum. -/
def Endpoint.BackfillSecretKeys : Endpoint → Endpoint
  | .slack s => .slack s.BackfillSecretKeys
  | .http h => .http h.BackfillSecretKeys

/-- `SecretFields` lifted to the variant sum. -/
def Endpoint.SecretFields : Endpoint → List SecretField
  | .slack s => s.SecretFields
  | .http h => h.SecretFields

/-- The secret keys an endpoint currently holds. -/
def Endpoint.secretKeys (e : Endpoint) : List String :=
  e.SecretFields.map (·.key)

/-! ## Codec: encode (variant `MarshalJSON`) and decode (`endpoint.UnmarshalJSON`) -/

/-- The JSON members contributed by `influxdb.EndpointBase`.
Modelled from the spec (section 6): `id`, `orgID`, `name`, `description`,
`status`, `createdAt`, `updatedAt`, all string-valued on the wire. -/
def EndpointBase.marshalFields (b : EndpointBase) : List (String × JVal) :=
  [("id", .str b.id), ("orgID", .str b.orgID), ("name", .str b.name),
   ("description", .str b.description), ("status", .str b.status),
   ("createdAt", .str b.createdAt), ("updatedAt", .str b.updatedAt)]

/-- `Slack.MarshalJSON` (source `part_000` lines 71-81): the alias struct's
members — embedded base, `url`, the redacted `token` — with the `type`
discriminator injected after the variant's own fields. -/
def Slack.MarshalJSON (s : Slack) : JVal :=
  .obj (s.base.marshalFields
    ++ [("url", .str s.URL), ("token", .str s.Token.MarshalJSON)]
    ++ [("type", .str "slack")])

/-- `HTTP.MarshalJSON`.
Modelled from the spec (sections 4.2 and 6) and the wire bodies asserted by
the handler tests (`part_003`): base members, `url`, `headers`, redacted
`token` / `username` / `password`, `authMethod`, `method`,
`contentTemplate`, then the `type` discriminator. -/
def HTTPE.MarshalJSON (h : HTTPE) : JVal :=
  .obj (h.base.marshalFields
    ++ [("url", .str h.URL),
        ("headers", .obj (h.Headers.map (fun kv => (kv.1, JVal.str kv.2)))),
        ("token", .str h.Token.MarshalJSON),
        ("username", .str h.Username.MarshalJSON),
        ("password", .str h.Password.MarshalJSON),
        ("authMethod", .str h.AuthMethod),
        ("method", .str h.Method),
        ("contentTemplate", .str h.ContentTemplate)]
    ++ [("type", .str "http")])

/-- `MarshalJSON` lifted to the variant sum. -/
def Endpoint.MarshalJSON : Endpoint → JVal
  | .slack s => s.MarshalJSON
  | .http h => h.MarshalJSON

/-- An error value (`influxdb.Error`): a machine code and a message. -/
structure Err where
  code : String
  msg : String
  deriving DecidableEq, Repr

/-- `influxdb.EInvalid`. -/
def EInvalid : String := "invalid"

/-- `influxdb.ENotFound`. -/
def ENotFound : String := "not found"

/-- Decoding of one base member: a missing or non-string member decodes to
the zero value (spec, section 4.2 Decode: decode is total, missing fields
decode to their zero value). -/
def JVal.getStrD (j : JVal) (k : String) : String :=
  (j.getStr k).getD ""

/-- Decoding of `influxdb.EndpointBase` from a wire object.
Modelled from the spec (sections 4.2 and 6). -/
def EndpointBase.unmarshal (j : JVal) : EndpointBase :=
  { id := j.getStrD "id", orgID := j.getStrD "orgID", name := j.getStrD "name",
    description := j.getStrD "description", status := j.getStrD "status",
    createdAt := j.getStrD "createdAt", updatedAt := j.getStrD "updatedAt" }

/-- Decoding of one secret member: absent means the zero value, a string
goes through `SecretField.UnmarshalJSON`. -/
def JVal.getSecret (j : JVal) (k : String) : SecretField :=
  match j.getStr k with
  | none => { key := "", value := none }
  | some s => SecretField.UnmarshalJSON s

/-- Decoding of the header map: the string-valued members of the `headers`
object, in order. -/
def JVal.getHeaders (j : JVal) (k : String) : List (String × String) :=
  match j.get k with
  | some (.obj l) => l.filterMap (fun kv =>
      match kv.2 with
      | .str s => some (kv.1, s)
      | _ => none)
  | _ => []

/-- `endpoint.UnmarshalJSON`, the discriminator dispatch of the codec.
Modelled from the spec (section 4.2 Decode): read the `type` discriminator
first and fail with an `UnknownType` error if it is not a known variant;
otherwise construct a zero value of the matched variant and unmarshal the
remaining members into it, mapping public secret field names to
`SecretField.value` and leaving every key empty. The wrapper
`notificationEndpointDecoder.UnmarshalJSON`
(`http/notification_endpoint.go` lines 728-735) delegates to this. -/
def endpointUnmarshalJSON (j : JVal) : Except Err Endpoint :=
  match j.getStr "type" with
  | some "slack" =>
      .ok (.slack { base := EndpointBase.unmarshal j, URL := j.getStrD "url",
                    Token := j.getSecret "token" })
  | some "http" =>
      .ok (.http { base := EndpointBase.unmarshal j, URL := j.getStrD "url",
                   Headers := j.getHeaders "headers",
                   Token := j.getSecret "token",
                   Username := j.getSecret "username",
                   Password := j.getSecret "password",
                   AuthMethod := j.getStrD "authMethod",
                   Method := j.getStrD "method",
                   ContentTemplate := j.getStrD "contentTemplate" })
  | some t => .error { code := EInvalid, msg := "unknown notification endpoint type " ++ t }
  | none => .error { code := EInvalid, msg := "unknown notification endpoint type" }

/-! ## Helper lemmas -/

theorem String.append_ne_empty_of_right {sfx : String} (a : String)
    (h : sfx.length ≠ 0) : a ++ sfx ≠ "" := by
  intro he
  have hl := congrArg String.length he
  simp [String.length_append] at hl
  exact h hl.2

theorem String.append_ne_empty_of_left {a : String} (sfx : String)
    (h : a.length ≠ 0) : a ++ sfx ≠ "" := by
  intro he
  have hl := congrArg String.length he
  simp [String.length_append] at hl
  exact h hl.1

theorem SecretField.backfillWith_key_of_set (idStr sfx : String) (sf : SecretField)
    (h : sf.key ≠ "") : sf.backfillWith idStr sfx = sf := by
  simp [SecretField.backfillWith, h]

theorem SecretField.backfillWith_of_none (idStr sfx : String) (sf : SecretField)
    (h : sf.value = none) : sf.backfillWith idStr sfx = sf := by
  simp [SecretField.backfillWith, h]

theorem SecretField.backfillWith_idem (idStr sfx : String) (hs : sfx.length ≠ 0)
    (sf : SecretField) :
    (sf.backfillWith idStr sfx).backfillWith idStr sfx = sf.backfillWith idStr sfx := by
  by_cases h : sf.key = "" ∧ sf.value ≠ none
  · have hne : idStr ++ sfx ≠ "" := String.append_ne_empty_of_right idStr hs
    simp [SecretField.backfillWith, h, hne]
  · simp [SecretField.backfillWith, h]

theorem slack_backfill_twice (s : Slack) :
    s.BackfillSecretKeys.BackfillSecretKeys = s.BackfillSecretKeys := by
  simp [Slack.BackfillSecretKeys, slackTokenSuffix]
  exact SecretField.backfillWith_idem _ _ (by decide) _

theorem http_backfill_twice (h : HTTPE) :
    h.BackfillSecretKeys.BackfillSecretKeys = h.BackfillSecretKeys := by
  simp [HTTPE.BackfillSecretKeys]
  refine ⟨?_, ?_, ?_⟩ <;> exact SecretField.backfillWith_idem _ _ (by decide) _

theorem endpoint_backfill_twice (e : Endpoint) :
    e.BackfillSecretKeys.BackfillSecretKeys = e.BackfillSecretKeys := by
  cases e with
  | slack s => simpa [Endpoint.BackfillSecretKeys] using slack_backfill_twice s
  | http h => simpa [Endpoint.BackfillSecretKeys] using http_backfill_twice h

/-! ## C3: backfill is idempotent -/

/-- C3: for every endpoint variant and every `n ≥ 1`, calling
`BackfillSecretKeys` `n` times yields the same result (in particular the
same secret keys) as calling it once, and the underlying per-field backfill
step never overwrites a key that is already set. -/
theorem backfillSecretKeys_idempotent (e : Endpoint) (n : Nat) (hn : 1 ≤ n) :
    Endpoint.BackfillSecretKeys^[n] e = e.BackfillSecretKeys ∧
    (∀ (idStr sfx : String) (sf : SecretField), sf.key ≠ "" →
      sf.backfillWith idStr sfx = sf) := by
  refine ⟨?_, fun idStr sfx sf h => SecretField.backfillWith_key_of_set idStr sfx sf h⟩
  obtain ⟨m, rfl⟩ : ∃ m, n = m + 1 := ⟨n - 1, by omega⟩
  clear hn
  induction m with
  | zero => simp
  | succ k ih =>
      rw [Function.iterate_succ_apply', ih]
      exact endpoint_backfill_twice e

/-- A concrete slack endpoint used by the C3 witness. -/
def slackExC3 : Endpoint :=
  .slack { base := { id := "0001", orgID := "02", name := "n",
                     description := "", status := "active",
                     createdAt := "t0", updatedAt := "t0" },
           URL := "http://example.com",
           Token := { key := "", value := some "tok" } }

/-- Witness for C3 at a concrete endpoint and `n = 3`. -/
theorem backfillSecretKeys_idempotent_witness :
    Endpoint.BackfillSecretKeys^[3] slackExC3 = slackExC3.BackfillSecretKeys :=
  (backfillSecretKeys_idempotent slackExC3 3 (by decide)).1

/-! ## C4: the deterministic key derived by backfill -/

/-- C4: backfill assigns the key "endpoint identifier string followed by the
field suffix" (`-token` for the slack token, `-username` and `-password` for
the HTTP variant's secrets) to every secret field that holds a value but no
key; a field whose key is already set, or whose value is absent, is left
unchanged. -/
theorem backfillSecretKeys_key_assignment (s : Slack) (h : HTTPE) :
    ((s.Token.key = "" → s.Token.value ≠ none →
        s.BackfillSecretKeys.Token =
          { key := s.base.id ++ "-token", value := s.Token.value }) ∧
      (s.Token.key ≠ "" ∨ s.Token.value = none →
        s.BackfillSecretKeys.Token = s.Token)) ∧
    ((h.Username.key = "" → h.Username.value ≠ none →
        h.BackfillSecretKeys.Username =
          { key := h.base.id ++ "-username", value := h.Username.value }) ∧
      (h.Username.key ≠ "" ∨ h.Username.value = none →
        h.BackfillSecretKeys.Username = h.Username)) ∧
    ((h.Password.key = "" → h.Password.value ≠ none →
        h.BackfillSecretKeys.Password =
          { key := h.base.id ++ "-password", value := h.Password.value }) ∧
      (h.Password.key ≠ "" ∨ h.Password.value = none →
        h.BackfillSecretKeys.Password = h.Password)) := by
  refine ⟨⟨?_, ?_⟩, ⟨?_, ?_⟩, ⟨?_, ?_⟩⟩
  · intro hk hv
    simp [Slack.BackfillSecretKeys, slackTokenSuffix, SecretField.backfillWith, hk, hv]
  · rintro (hk | hv)
    · simp [Slack.BackfillSecretKeys, SecretField.backfillWith_key_of_set _ _ _ hk]
    · simp [Slack.BackfillSecretKeys, SecretField.backfillWith_of_none _ _ _ hv]
  · intro hk hv
    simp [HTTPE.BackfillSecretKeys, SecretField.backfillWith, hk, hv]
  · rintro (hk | hv)
    · simp [HTTPE.BackfillSecretKeys, SecretField.backfillWith_key_of_set _ _ _ hk]
    · simp [HTTPE.BackfillSecretKeys, SecretField.backfillWith_of_none _ _ _ hv]
  · intro hk hv
    simp [HTTPE.BackfillSecretKeys, SecretField.backfillWith, hk, hv]
  · rintro (hk | hv)
    · simp [HTTPE.BackfillSecretKeys, SecretField.backfillWith_key_of_set _ _ _ hk]
    · simp [HTTPE.BackfillSecretKeys, SecretField.backfillWith_of_none _ _ _ hv]

/-- A concrete slack endpoint for the C4 witness: value held, key empty. -/
def slackExC4 : Slack :=
  { base := { id := "020f755c3c082000", orgID := "02", name := "hello",
              description := "", status := "active",
              createdAt := "t0", updatedAt := "t0" },
    URL := "http://example.com",
    Token := { key := "", value := some "tok" } }

/-- A concrete HTTP endpoint for the C4 witness: username and password
values held, keys empty. -/
def httpExC4 : HTTPE :=
  { base := { id := "020f755c3c082000", orgID := "6f626f7274697320",
              name := "hello", description := "desc1", status := "active",
              createdAt := "t0", updatedAt := "t0" },
    URL := "example.com", Headers := [],
    Token := { key := "", value := none },
    Username := { key := "", value := some "user1" },
    Password := { key := "", value := some "password1" },
    AuthMethod := "basic", Method := "POST", ContentTemplate := "template" }

/-- Witness for C4: the backfilled keys are exactly
`020f755c3c082000-token`, `020f755c3c082000-username`,
`020f755c3c082000-password`. -/
theorem backfillSecretKeys_key_assignment_witness :
    slackExC4.BackfillSecretKeys.Token =
        { key := "020f755c3c082000-token", value := some "tok" } ∧
    httpExC4.BackfillSecretKeys.Username =
        { key := "020f755c3c082000-username", value := some "user1" } ∧
    httpExC4.BackfillSecretKeys.Password =
        { key := "020f755c3c082000-password", value := some "password1" } := by
  have hmain := backfillSecretKeys_key_assignment slackExC4 httpExC4
  refine ⟨?_, ?_, ?_⟩
  · simpa using hmain.1.1 (by decide) (by simp [slackExC4])
  · simpa using hmain.2.1.1 (by decide) (by simp [httpExC4])
  · simpa using hmain.2.2.1 (by decide) (by simp [httpExC4])

/-! ## C2: the encoded wire JSON redacts secret values -/

/-- The secret fields of a variant together with the public wire name each
one is serialized under (json tag `token` in source `part_000` line 23; the
HTTP names from the spec, section 4.2, and the test wire bodies). -/
def Endpoint.secretWire : Endpoint → List (String × SecretField)
  | .slack s => [("token", s.Token)]
  | .http h => [("token", h.Token), ("username", h.Username), ("password", h.Password)]

/-- C2: for every endpoint and every secret field holding a non-empty
plaintext value, the variant encoder writes, under the field's public wire
name, exactly the empty string (no key held) or `"secret: " + key` — and
hence never the plaintext value itself (the emitted string does not depend
on the value at all; the only way it can coincide with the plaintext is the
degenerate case where the plaintext literally equals the redaction string
`"secret: " + key`). -/
theorem encode_redacts_secret_values (e : Endpoint) (pn : String) (sf : SecretField)
    (v : String) (hmem : (pn, sf) ∈ e.secretWire) (hv : sf.value = some v)
    (hne : v ≠ "") :
    e.MarshalJSON.getStr pn = some sf.MarshalJSON ∧
    (sf.key = "" ∧ sf.MarshalJSON = "" ∨
      sf.key ≠ "" ∧ sf.MarshalJSON = "secret: " ++ sf.key) ∧
    (v ≠ "secret: " ++ sf.key → e.MarshalJSON.getStr pn ≠ some v) := by
  have hshape : sf.key = "" ∧ sf.MarshalJSON = "" ∨
      sf.key ≠ "" ∧ sf.MarshalJSON = "secret: " ++ sf.key := by
    by_cases hk : sf.key = ""
    · exact Or.inl ⟨hk, by simp [SecretField.MarshalJSON, hk]⟩
    · exact Or.inr ⟨hk, by simp [SecretField.MarshalJSON, hk]⟩
  have hget : e.MarshalJSON.getStr pn = some sf.MarshalJSON := by
    cases e with
    | slack s =>
        simp only [Endpoint.secretWire, List.mem_singleton, Prod.mk.injEq] at hmem
        obtain ⟨rfl, rfl⟩ := hmem
        simp [Endpoint.MarshalJSON, Slack.MarshalJSON, EndpointBase.marshalFields,
          JVal.getStr, JVal.fields, List.lookup]
    | http h =>
        simp only [Endpoint.secretWire, List.mem_cons, List.mem_singleton,
          Prod.mk.injEq, List.not_mem_nil, or_false] at hmem
        rcases hmem with ⟨rfl, rfl⟩ | ⟨rfl, rfl⟩ | ⟨rfl, rfl⟩ <;>
          simp [Endpoint.MarshalJSON, HTTPE.MarshalJSON, EndpointBase.marshalFields,
            JVal.getStr, JVal.fields, List.lookup]
  refine ⟨hget, hshape, fun hvr hcontra => ?_⟩
  rw [hget] at hcontra
  have hveq : sf.MarshalJSON = v := by injection hcontra
  rcases hshape with ⟨_, hm⟩ | ⟨_, hm⟩
  · exact hne (hveq.symm.trans hm)
  · exact hvr (hveq.symm.trans hm)

/-- A concrete HTTP endpoint for the C2 witness, mirroring the create test
(`part_003` lines 429-490) after key backfill. -/
def httpExC2 : HTTPE :=
  { base := { id := "020f755c3c082000", orgID := "6f626f7274697320",
              name := "hello", description := "desc1", status := "active",
              createdAt := "t0", updatedAt := "t0" },
    URL := "example.com", Headers := [],
    Token := { key := "", value := none },
    Username := { key := "020f755c3c082000-username", value := some "user1" },
    Password := { key := "020f755c3c082000-password", value := some "password1" },
    AuthMethod := "basic", Method := "POST", ContentTemplate := "template" }

/-- Witness for C2: the encoded `username` member is the redaction string,
not the plaintext `user1`. -/
theorem encode_redacts_secret_values_witness :
    (Endpoint.http httpExC2).MarshalJSON.getStr "username" =
        some "secret: 020f755c3c082000-username" ∧
    (Endpoint.http httpExC2).MarshalJSON.getStr "username" ≠ some "user1" := by
  have h := encode_redacts_secret_values (.http httpExC2) "username" httpExC2.Username
    "user1" (by simp [Endpoint.secretWire]) (by rfl) (by decide)
  refine ⟨?_, h.2.2 (by decide)⟩
  have := h.1
  simpa [httpExC2, SecretField.MarshalJSON] using this

/-! ## C7: slack validation -/

/-- `EndpointBase.Valid`.
Modelled from the spec (section 4.1): base fields pass when the name is
non-empty and the lifecycle status is one of the two valid states. -/
def EndpointBase.Valid (b : EndpointBase) : Option Err :=
  if b.name = "" then
    some { code := EInvalid, msg := "Notification Endpoint Name can't be empty" }
  else if statusValid b.status then none
  else some { code := EInvalid, msg := "invalid status" }

/-- `Slack.Valid` (source `part_000` lines 47-67): base validity first, then
the URL must be provided, then it must parse as a URL. `url.Parse` is Go
library code, abstracted here as the parameter `parseOk`; validation is a
pure function of the endpoint (the Go method takes its receiver by value
and performs no writes). -/
def Slack.Valid (parseOk : String → Bool) (s : Slack) : Option Err :=
  match s.base.Valid with
  | some er => some er
  | none =>
      if s.URL = "" then
        some { code := EInvalid, msg := "slack endpoint URL must be provided" }
      else if parseOk s.URL then none
      else some { code := EInvalid, msg := "slack endpoint URL is invalid" }

/-- C7: for every slack endpoint, `Valid` succeeds exactly when the base
fields pass (non-empty name, valid status), the URL is non-empty and the
URL parses; every error it ever returns carries the invalid-configuration
code. Purity holds by construction: the embedding is a function of the
endpoint value alone. -/
theorem slack_valid_iff (parseOk : String → Bool) (s : Slack) :
    (s.Valid parseOk = none ↔
      (s.base.name ≠ "" ∧ statusValid s.base.status = true ∧
        s.URL ≠ "" ∧ parseOk s.URL = true)) ∧
    (∀ er : Err, s.Valid parseOk = some er → er.code = EInvalid) := by
  unfold Slack.Valid EndpointBase.Valid
  by_cases h1 : s.base.name = "" <;> by_cases h2 : statusValid s.base.status <;>
    by_cases h3 : s.URL = "" <;> by_cases h4 : parseOk s.URL <;>
      simp_all [EInvalid]

/-- A concrete slack endpoint for the C7 witness. -/
def slackExC7 : Slack :=
  { base := { id := "0b501e7e557ab1ed", orgID := "50f7ba1150f7ba11",
              name := "hello", description := "", status := "active",
              createdAt := "t0", updatedAt := "t0" },
    URL := "http://example.com",
    Token := { key := "", value := none } }

/-- Witness for C7: with every condition satisfied, `Valid` returns no
error, and on the same endpoint with the URL blanked it returns an error
with the invalid-configuration code. -/
theorem slack_valid_iff_witness :
    slackExC7.Valid (fun _ => true) = none ∧
    ∀ er : Err, { slackExC7 with URL := "" }.Valid (fun _ => true) = some er →
      er.code = EInvalid := by
  constructor
  · exact (slack_valid_iff (fun _ => true) slackExC7).1.mpr
      (by refine ⟨by decide, by decide, by decide, rfl⟩)
  · exact (slack_valid_iff (fun _ => true) { slackExC7 with URL := "" }).2

/-! ## C1: the encode/decode round trip -/

theorem EndpointBase.unmarshal_marshalFields (b : EndpointBase)
    (rest : List (String × JVal)) :
    EndpointBase.unmarshal (.obj (b.marshalFields ++ rest)) = b := by
  simp [EndpointBase.unmarshal, EndpointBase.marshalFields, JVal.getStrD,
    JVal.getStr, JVal.fields, List.lookup]

theorem unmarshal_marshal_slack (s : Slack) :
    endpointUnmarshalJSON (Endpoint.slack s).MarshalJSON =
      .ok (.slack { base := s.base, URL := s.URL,
                    Token := SecretField.UnmarshalJSON s.Token.MarshalJSON }) := by
  simp [endpointUnmarshalJSON, Endpoint.MarshalJSON, Slack.MarshalJSON,
    EndpointBase.marshalFields, EndpointBase.unmarshal, JVal.getStrD, JVal.getStr,
    JVal.getSecret, JVal.fields, List.lookup]

theorem headers_decode_encode (l : List (String × String)) :
    List.filterMap
      ((fun kv => match kv.2 with | JVal.str s => some (kv.1, s) | _ => none) ∘
        fun kv => (kv.1, JVal.str kv.2)) l = l := by
  induction l with
  | nil => rfl
  | cons a t ih => simp [Function.comp, ih]

theorem unmarshal_marshal_http (h : HTTPE) :
    endpointUnmarshalJSON (Endpoint.http h).MarshalJSON =
      .ok (.http { base := h.base, URL := h.URL, Headers := h.Headers,
                   Token := SecretField.UnmarshalJSON h.Token.MarshalJSON,
                   Username := SecretField.UnmarshalJSON h.Username.MarshalJSON,
                   Password := SecretField.UnmarshalJSON h.Password.MarshalJSON,
                   AuthMethod := h.AuthMethod, Method := h.Method,
                   ContentTemplate := h.ContentTemplate }) := by
  simp [endpointUnmarshalJSON, Endpoint.MarshalJSON, HTTPE.MarshalJSON,
    EndpointBase.marshalFields, EndpointBase.unmarshal, JVal.getStrD, JVal.getStr,
    JVal.getSecret, JVal.getHeaders, JVal.get, JVal.fields, List.lookup,
    headers_decode_encode]

/-- The shape a secret field has right after decode-then-backfill: an empty
key means no value was held, and a non-empty key is the deterministic
backfilled one. -/
def SecretField.wellKeyed (idStr sfx : String) (sf : SecretField) : Prop :=
  (sf.key = "" → sf.value = none) ∧ (sf.key ≠ "" → sf.key = idStr ++ sfx)

theorem JVal.getSecret_key (j : JVal) (k : String) : (j.getSecret k).key = "" := by
  unfold JVal.getSecret SecretField.UnmarshalJSON
  rcases j.getStr k with _ | s
  · rfl
  · dsimp only
    split <;> rfl

theorem SecretField.backfillWith_wellKeyed (idStr sfx : String)
    (hsfx : sfx.length ≠ 0) (sf : SecretField) (hk : sf.key = "") :
    (sf.backfillWith idStr sfx).wellKeyed idStr sfx := by
  by_cases hv : sf.value = none
  · simp [SecretField.backfillWith, SecretField.wellKeyed, hk, hv]
  · simp [SecretField.backfillWith, SecretField.wellKeyed, hk, hv,
      String.append_ne_empty_of_right idStr hsfx]

theorem SecretField.roundtrip_key (idStr sfx : String) (sf : SecretField)
    (hwk : sf.wellKeyed idStr sfx) :
    ((SecretField.UnmarshalJSON sf.MarshalJSON).backfillWith idStr sfx).key = sf.key := by
  by_cases hk : sf.key = ""
  · simp [SecretField.MarshalJSON, SecretField.UnmarshalJSON,
      SecretField.backfillWith, hk]
  · have hne : "secret: " ++ sf.key ≠ "" :=
      String.append_ne_empty_of_left sf.key (by decide)
    simp [SecretField.MarshalJSON, SecretField.UnmarshalJSON,
      SecretField.backfillWith, hk, hne, (hwk.2 hk).symm]

theorem slack_roundtrip (s : Slack)
    (hwk : s.Token.wellKeyed s.base.id slackTokenSuffix) :
    ∃ s' : Slack,
      endpointUnmarshalJSON (Endpoint.slack s).MarshalJSON = .ok (.slack s') ∧
      s'.BackfillSecretKeys.base = s.base ∧
      (Endpoint.slack s'.BackfillSecretKeys).secretKeys =
        (Endpoint.slack s).secretKeys := by
  refine ⟨_, unmarshal_marshal_slack s, ?_, ?_⟩
  · rfl
  · have hkey := SecretField.roundtrip_key s.base.id slackTokenSuffix s.Token hwk
    by_cases hk : s.Token.key = "" <;>
      simp [Endpoint.secretKeys, Endpoint.SecretFields, Slack.SecretFields,
        Slack.BackfillSecretKeys, hkey, hk]

theorem http_roundtrip (h : HTTPE)
    (hwkT : h.Token.wellKeyed h.base.id "-token")
    (hwkU : h.Username.wellKeyed h.base.id "-username")
    (hwkP : h.Password.wellKeyed h.base.id "-password") :
    ∃ h' : HTTPE,
      endpointUnmarshalJSON (Endpoint.http h).MarshalJSON = .ok (.http h') ∧
      h'.BackfillSecretKeys.base = h.base ∧
      (Endpoint.http h'.BackfillSecretKeys).secretKeys =
        (Endpoint.http h).secretKeys := by
  refine ⟨_, unmarshal_marshal_http h, ?_, ?_⟩
  · rfl
  · have hkT := SecretField.roundtrip_key h.base.id "-token" h.Token hwkT
    have hkU := SecretField.roundtrip_key h.base.id "-username" h.Username hwkU
    have hkP := SecretField.roundtrip_key h.base.id "-password" h.Password hwkP
    by_cases h1 : h.Token.key = "" <;> by_cases h2 : h.Username.key = "" <;>
      by_cases h3 : h.Password.key = "" <;>
        simp [Endpoint.secretKeys, Endpoint.SecretFields, HTTPE.SecretFields,
          HTTPE.BackfillSecretKeys, hkT, hkU, hkP, h1, h2, h3]

theorem slack_decode_backfill_roundtrip (s0 : Slack) (hk : s0.Token.key = "") :
    ∃ e' : Endpoint,
      endpointUnmarshalJSON (Endpoint.slack s0).BackfillSecretKeys.MarshalJSON = .ok e' ∧
      e'.BackfillSecretKeys.typeStr = (Endpoint.slack s0).BackfillSecretKeys.typeStr ∧
      e'.BackfillSecretKeys.base = (Endpoint.slack s0).BackfillSecretKeys.base ∧
      e'.BackfillSecretKeys.secretKeys =
        (Endpoint.slack s0).BackfillSecretKeys.secretKeys := by
  have hwk : s0.BackfillSecretKeys.Token.wellKeyed
      s0.BackfillSecretKeys.base.id slackTokenSuffix :=
    SecretField.backfillWith_wellKeyed _ _ (by decide) _ hk
  obtain ⟨s', hdec', hbase, hkeys⟩ := slack_roundtrip s0.BackfillSecretKeys hwk
  exact ⟨.slack s', hdec', rfl, hbase, hkeys⟩

theorem http_decode_backfill_roundtrip (h0 : HTTPE) (hkT : h0.Token.key = "")
    (hkU : h0.Username.key = "") (hkP : h0.Password.key = "") :
    ∃ e' : Endpoint,
      endpointUnmarshalJSON (Endpoint.http h0).BackfillSecretKeys.MarshalJSON = .ok e' ∧
      e'.BackfillSecretKeys.typeStr = (Endpoint.http h0).BackfillSecretKeys.typeStr ∧
      e'.BackfillSecretKeys.base = (Endpoint.http h0).BackfillSecretKeys.base ∧
      e'.BackfillSecretKeys.secretKeys =
        (Endpoint.http h0).BackfillSecretKeys.secretKeys := by
  have hwkT : h0.BackfillSecretKeys.Token.wellKeyed
      h0.BackfillSecretKeys.base.id "-token" :=
    SecretField.backfillWith_wellKeyed _ _ (by decide) _ hkT
  have hwkU : h0.BackfillSecretKeys.Username.wellKeyed
      h0.BackfillSecretKeys.base.id "-username" :=
    SecretField.backfillWith_wellKeyed _ _ (by decide) _ hkU
  have hwkP : h0.BackfillSecretKeys.Password.wellKeyed
      h0.BackfillSecretKeys.base.id "-password" :=
    SecretField.backfillWith_wellKeyed _ _ (by decide) _ hkP
  obtain ⟨h', hdec', hbase, hkeys⟩ :=
    http_roundtrip h0.BackfillSecretKeys hwkT hwkU hwkP
  exact ⟨.http h', hdec', rfl, hbase, hkeys⟩

/-- C1 (amended): for every endpoint obtained by decoding a wire object and
backfilling its secret keys, decoding the result of encoding it and then
backfilling the secret keys again yields an endpoint with the same type
discriminator, the same base fields and the same secret keys. (As stated in
the claim - without the final backfill - the property fails, because decode
never accepts keys from the wire; see the counterexample.) -/
theorem decode_encode_backfill_roundtrip (j : JVal) (e : Endpoint)
    (hdec : endpointUnmarshalJSON j = .ok e) :
    ∃ e' : Endpoint,
      endpointUnmarshalJSON e.BackfillSecretKeys.MarshalJSON = .ok e' ∧
      e'.BackfillSecretKeys.typeStr = e.BackfillSecretKeys.typeStr ∧
      e'.BackfillSecretKeys.base = e.BackfillSecretKeys.base ∧
      e'.BackfillSecretKeys.secretKeys = e.BackfillSecretKeys.secretKeys := by
  unfold endpointUnmarshalJSON at hdec
  split at hdec
  · injection hdec with h
    subst h
    exact slack_decode_backfill_roundtrip _ (JVal.getSecret_key j "token")
  · injection hdec with h
    subst h
    exact http_decode_backfill_roundtrip _ (JVal.getSecret_key j "token")
      (JVal.getSecret_key j "username") (JVal.getSecret_key j "password")
  · exact absurd hdec (by simp)
  · exact absurd hdec (by simp)

/-- A concrete wire object carrying a slack payload with a plaintext token
value, as a create request would (cf. `part_003` lines 445-458). -/
def jC1 : JVal :=
  .obj [("type", .str "slack"), ("id", .str "0001"), ("orgID", .str "02"),
        ("name", .str "hello"), ("description", .str ""), ("status", .str "active"),
        ("createdAt", .str "t0"), ("updatedAt", .str "t0"),
        ("url", .str "http://example.com"), ("token", .str "tok")]

/-- The endpoint `jC1` decodes to. -/
def eC1 : Endpoint :=
  .slack { base := { id := "0001", orgID := "02", name := "hello",
                     description := "", status := "active",
                     createdAt := "t0", updatedAt := "t0" },
           URL := "http://example.com",
           Token := { key := "", value := some "tok" } }

/-- What decoding the encoding of the decoded-and-backfilled `eC1` yields:
the token's key is lost (only its redaction string survives as the value). -/
def eC1' : Endpoint :=
  .slack { base := { id := "0001", orgID := "02", name := "hello",
                     description := "", status := "active",
                     createdAt := "t0", updatedAt := "t0" },
           URL := "http://example.com",
           Token := { key := "", value := some "secret: 0001-token" } }

/-- Counterexample to C1 as stated: `eC1` is decoded (from `jC1`) and
backfilled, holding the secret key `0001-token`; decoding the result of
encoding it yields an endpoint whose secret keys are `[]`, not the same
secret keys — decode alone never accepts keys from the wire, they are only
restored by a further backfill. -/
theorem decode_encode_loses_secret_keys :
    endpointUnmarshalJSON jC1 = .ok eC1 ∧
    eC1.BackfillSecretKeys.secretKeys = ["0001-token"] ∧
    endpointUnmarshalJSON eC1.BackfillSecretKeys.MarshalJSON = .ok eC1' ∧
    eC1'.secretKeys = [] ∧
    eC1'.secretKeys ≠ eC1.BackfillSecretKeys.secretKeys :=
  ⟨rfl, rfl, rfl, rfl, by simp [eC1, eC1', Endpoint.BackfillSecretKeys,
    Slack.BackfillSecretKeys, SecretField.backfillWith, slackTokenSuffix,
    Endpoint.secretKeys, Endpoint.SecretFields, Slack.SecretFields]⟩

/-- Witness for the amended C1 at the concrete wire object `jC1`. -/
theorem decode_encode_backfill_roundtrip_witness :
    ∃ e' : Endpoint,
      endpointUnmarshalJSON eC1.BackfillSecretKeys.MarshalJSON = .ok e' ∧
      e'.BackfillSecretKeys.typeStr = eC1.BackfillSecretKeys.typeStr ∧
      e'.BackfillSecretKeys.base = eC1.BackfillSecretKeys.base ∧
      e'.BackfillSecretKeys.secretKeys = eC1.BackfillSecretKeys.secretKeys :=
  decode_encode_backfill_roundtrip jC1 eC1 rfl

/-! ## C8: best-effort label attachment on create -/

/-- A label (`influxdb.Label`), reduced to the members this flow reads. -/
structure Label where
  id : String
  name : String
  deriving DecidableEq, Repr

/-- The collaborators `mapNewNotificationEndpointLabels` calls out to:
identifier decoding (`ID.DecodeFromString`, failure as `none`), label
resolution (`LabelService.FindLabelByID`), and mapping creation
(`LabelService.CreateLabelMapping`, success as `true`). -/
structure LabelSvc where
  decodeID : String → Option String
  FindLabelByID : String → Option Label
  CreateLabelMapping : String → String → Bool

/-- `mapNewNotificationEndpointLabels` (source
`http/notification_endpoint.go` lines 425-454): walk the submitted label
identifier strings; on a decode, resolve or mapping failure `continue` to
the next one; collect each successfully mapped label. -/
def mapNewNotificationEndpointLabels (svc : LabelSvc) (rid : String) :
    List String → List Label
  | [] => []
  | sid :: rest =>
      match svc.decodeID sid with
      | none => mapNewNotificationEndpointLabels svc rid rest
      | some lid =>
          match svc.FindLabelByID lid with
          | none => mapNewNotificationEndpointLabels svc rid rest
          | some label =>
              if svc.CreateLabelMapping label.id rid then
                label :: mapNewNotificationEndpointLabels svc rid rest
              else
                mapNewNotificationEndpointLabels svc rid rest

/-- `handlePostNotificationEndpoint` (source lines 393-423), after request
decoding and authorization: create the endpoint through the service (an
error aborts the request), then attach the submitted labels best-effort and
respond with the created endpoint and the attached labels. -/
def handlePostNotificationEndpoint (svc : LabelSvc)
    (create : Endpoint → Except Err Endpoint) (edp : Endpoint)
    (labels : List String) : Except Err (Endpoint × List Label) :=
  match create edp with
  | .error er => .error er
  | .ok edp' => .ok (edp', mapNewNotificationEndpointLabels svc edp'.base.id labels)

/-- C8: a label identifier that fails to decode, to resolve, or to be
mapped is skipped without failing the create; the create succeeds whenever
the endpoint-service create succeeds, and the response's label list is
exactly the successfully attached labels. -/
theorem create_labels_best_effort (svc : LabelSvc)
    (create : Endpoint → Except Err Endpoint) (edp : Endpoint)
    (labels : List String) (edp' : Endpoint) (hc : create edp = .ok edp') :
    handlePostNotificationEndpoint svc create edp labels =
      .ok (edp', mapNewNotificationEndpointLabels svc edp'.base.id labels) ∧
    ∀ (rid : String) (sids : List String),
      mapNewNotificationEndpointLabels svc rid sids =
        sids.filterMap (fun sid =>
          (svc.decodeID sid).bind (fun lid =>
            (svc.FindLabelByID lid).bind (fun l =>
              if svc.CreateLabelMapping l.id rid then some l else none))) := by
  refine ⟨by simp [handlePostNotificationEndpoint, hc], fun rid sids => ?_⟩
  induction sids with
  | nil => rfl
  | cons sid rest ih =>
      rcases hd : svc.decodeID sid with _ | lid
      · simp [mapNewNotificationEndpointLabels, hd, ih]
      · rcases hf : svc.FindLabelByID lid with _ | label
        · simp [mapNewNotificationEndpointLabels, hd, hf, ih]
        · by_cases hm : svc.CreateLabelMapping label.id rid
          · simp [mapNewNotificationEndpointLabels, hd, hf, hm, ih]
          · simp [mapNewNotificationEndpointLabels, hd, hf, hm, ih]

/-- A concrete label collaborator for the C8 witness: `zz` fails to decode,
`gone` fails to resolve, `nomap` fails at mapping creation; everything else
succeeds. -/
def svcC8 : LabelSvc :=
  { decodeID := fun s => if s = "zz" then none else some s,
    FindLabelByID := fun lid =>
      if lid = "gone" then none else some { id := lid, name := "l-" ++ lid },
    CreateLabelMapping := fun lid _ => lid ≠ "nomap" }

/-- A concrete endpoint for the C8 witness. -/
def eC8 : Endpoint :=
  .slack { base := { id := "020f755c3c082000", orgID := "02", name := "hello",
                     description := "", status := "active",
                     createdAt := "t0", updatedAt := "t0" },
           URL := "http://example.com",
           Token := { key := "", value := none } }

/-- Witness for C8: of four submitted label identifiers, three fail in
three different ways and are skipped; the create succeeds and the response
carries exactly the one attached label. -/
theorem create_labels_best_effort_witness :
    handlePostNotificationEndpoint svcC8 Except.ok eC8
        ["fc3d", "zz", "gone", "nomap"] =
      .ok (eC8, [{ id := "fc3d", name := "l-fc3d" }]) :=
  ((create_labels_best_effort svcC8 Except.ok eC8
      ["fc3d", "zz", "gone", "nomap"] eC8 rfl).1).trans (by rfl)

/-! ## C9: the HTTP client encoder's secret-field name mapping -/

/-- The suffix-to-public-name table of the client encoder (source
`http/notification_endpoint.go` lines 708-713). -/
def fieldMap : List (String × String) :=
  [("-password", "password"), ("-routing-key", "routingKey"),
   ("-token", "token"), ("-username", "username")]

/-- Go map assignment `m[k] = v` on the unmarshalled JSON object: replace
the member if the name is present, otherwise add it. -/
def mapSet : List (String × JVal) → String → JVal → List (String × JVal)
  | [], k, v => [(k, v)]
  | (k0, v0) :: rest, k, v =>
      if k0 = k then (k0, v) :: rest else (k0, v0) :: mapSet rest k v

/-- `notificationEndpointEncoder.MarshalJSON` (source lines 695-722):
marshal the endpoint (redacted variant encoding), unmarshal into a map,
backfill the secret keys, then for each secret field write its plaintext
value (empty when absent) into the map under `fieldMap[sec.Key]` — an exact
map lookup of the full key, with the Go zero value `""` as the member name
when the key is not in the table. -/
def notificationEndpointEncoderMarshalJSON (ne : Endpoint) : JVal :=
  let m := ne.MarshalJSON.fields
  let ne' := ne.BackfillSecretKeys
  .obj (ne'.SecretFields.foldl
    (fun acc sec =>
      mapSet acc ((fieldMap.lookup sec.key).getD "") (.str (sec.value.getD ""))) m)

/-- A concrete HTTP endpoint with a real (non-zero) identifier and a fresh
username value, as the client Update path would produce. -/
def hC9 : HTTPE :=
  { base := { id := "020f755c3c082000", orgID := "02", name := "hello",
              description := "", status := "active",
              createdAt := "t0", updatedAt := "t0" },
    URL := "example.com", Headers := [],
    Token := { key := "", value := none },
    Username := { key := "", value := some "user1" },
    Password := { key := "", value := none },
    AuthMethod := "basic", Method := "POST", ContentTemplate := "template" }

/-- Counterexample to C9 as stated: with a non-empty endpoint identifier the
backfilled key `020f755c3c082000-username` is not a member of the
suffix-to-name table, so the exact lookup misses and the plaintext is
written under the empty member name, not under `username` — the `username`
member keeps its redacted value. -/
theorem encoder_backfilled_key_not_resolved :
    (notificationEndpointEncoderMarshalJSON (.http hC9)).getStr "username" = some "" ∧
    (notificationEndpointEncoderMarshalJSON (.http hC9)).getStr "" = some "user1" ∧
    (notificationEndpointEncoderMarshalJSON (.http hC9)).getStr "username" ≠
      some "user1" := by
  have h1 : (notificationEndpointEncoderMarshalJSON (.http hC9)).getStr "username" =
      some "" := rfl
  exact ⟨h1, rfl, fun hc => absurd (h1.symm.trans hc) (by decide)⟩

/-- C9 (amended): the client encoder writes each secret field's plaintext
value under the name obtained by an exact lookup of the field's full key in
the suffix-to-name table (the empty member name when the key is absent from
the table); consequently a backfilled key resolves to the public wire name
only when the endpoint identifier string is empty, so that the key is the
bare suffix — as on a fresh create payload, where `-username` resolves to
`username`. -/
theorem encoder_secret_field_map_lookup (h : HTTPE) (hid : h.base.id = "")
    (hkT : h.Token.key = "") (hkU : h.Username.key = "")
    (hkP : h.Password.key = "") (v : String) (hv : h.Username.value = some v) :
    (notificationEndpointEncoderMarshalJSON (.http h)).getStr "username" =
      some v := by
  rcases hT : h.Token.value with _ | tv <;> rcases hP : h.Password.value with _ | pv <;>
    simp [notificationEndpointEncoderMarshalJSON, Endpoint.MarshalJSON,
      HTTPE.MarshalJSON, Endpoint.BackfillSecretKeys, HTTPE.BackfillSecretKeys,
      Endpoint.SecretFields, HTTPE.SecretFields, SecretField.backfillWith,
      SecretField.MarshalJSON, EndpointBase.marshalFields, fieldMap, mapSet,
      JVal.getStr, JVal.fields, List.lookup, hid, hkT, hkU, hkP, hv, hT, hP]

/-- A concrete fresh create payload for the C9 witness: no identifier yet,
so the backfilled username key is the bare suffix `-username`. -/
def hC9fresh : HTTPE :=
  { base := { id := "", orgID := "6f626f7274697320", name := "hello",
              description := "desc1", status := "active",
              createdAt := "t0", updatedAt := "t0" },
    URL := "example.com", Headers := [],
    Token := { key := "", value := none },
    Username := { key := "", value := some "user1" },
    Password := { key := "", value := some "password1" },
    AuthMethod := "basic", Method := "POST", ContentTemplate := "template" }

/-- Witness for the amended C9: on the fresh payload the plaintext username
is written under the public name `username`. -/
theorem encoder_secret_field_map_lookup_witness :
    (notificationEndpointEncoderMarshalJSON (.http hC9fresh)).getStr "username" =
      some "user1" :=
  encoder_secret_field_map_lookup hC9fresh rfl rfl rfl rfl "user1" rfl

/-! ## C6: the client Update dispatch on the update mode -/

/-- `influxdb.NotificationEndpointUpdate`: the change-set payload — optional
name, description, status (absent means "no change"). -/
structure NotificationEndpointUpdate where
  Name : Option String
  Description : Option String
  Status : Option String
  deriving DecidableEq, Repr

/-- `influxdb.EndpointUpdate` as used by the client service (source
`http/notification_endpoint.go` lines 621-677): an update mode, the target
identifier and the mutator function. The Go mutator also returns an error,
which the client code discards, so it is modelled total. -/
structure EndpointUpdate where
  UpdateType : String
  ID : String
  Fn : String → Endpoint → Endpoint

/-- A request the HTTP client sends to the server. -/
inductive Request where
  | put (id : String) (body : JVal)
  | patchBody (id : String) (upd : NotificationEndpointUpdate)

/-- The zero value `&endpoint.HTTP{}`. -/
def zeroHTTPE : HTTPE :=
  { base := { id := "", orgID := "", name := "", description := "",
              status := "", createdAt := "", updatedAt := "" },
    URL := "", Headers := [],
    Token := { key := "", value := none },
    Username := { key := "", value := none },
    Password := { key := "", value := none },
    AuthMethod := "", Method := "", ContentTemplate := "" }

/-- `NotificationEndpointService.update` (source lines 636-648): apply the
mutator to a zero HTTP endpoint, PUT the client-encoded body, decode the
response. `serve` abstracts the server's response body. -/
def clientUpdateFull (serve : Request → JVal) (u : EndpointUpdate) :
    Except Err Endpoint × List Request :=
  let e := u.Fn "" (.http zeroHTTPE)
  let req := Request.put e.base.id (notificationEndpointEncoderMarshalJSON e)
  match endpointUnmarshalJSON (serve req) with
  | .ok e' => (.ok e', [req])
  | .error er => (.error er, [req])

/-- `NotificationEndpointService.patch` (source lines 652-677): apply the
mutator to a zero HTTP endpoint, build the change-set body from its base
(name when non-empty, description always, status when valid), PATCH it,
decode the response. -/
def clientPatch (serve : Request → JVal) (u : EndpointUpdate) :
    Except Err Endpoint × List Request :=
  let e := u.Fn "" (.http zeroHTTPE)
  let b := e.base
  let body : NotificationEndpointUpdate :=
    { Name := if b.name ≠ "" then some b.name else none,
      Description := some b.description,
      Status := if statusValid b.status then some b.status else none }
  let req := Request.patchBody b.id body
  match endpointUnmarshalJSON (serve req) with
  | .ok e' => (.ok e', [req])
  | .error er => (.error er, [req])

/-- `NotificationEndpointService.Update` (source lines 621-634): dispatch on
the update mode; any mode other than `endpoint` (full replace) and
`change_set` is rejected with an invalid-request error. The second
component of the result lists the requests sent to the server. -/
def NotificationEndpointServiceUpdate (serve : Request → JVal)
    (u : EndpointUpdate) : Except Err Endpoint × List Request :=
  if u.UpdateType = "endpoint" then clientUpdateFull serve u
  else if u.UpdateType = "change_set" then clientPatch serve u
  else (.error { code := EInvalid, msg := "invalid update provided" }, [])

/-- C6: for every update whose mode is neither full-replace (`endpoint`)
nor change-set, Update returns the invalid-request error and sends no
request at all — so no endpoint is mutated. -/
theorem update_unknown_mode_invalid (serve : Request → JVal)
    (u : EndpointUpdate) (h1 : u.UpdateType ≠ "endpoint")
    (h2 : u.UpdateType ≠ "change_set") :
    NotificationEndpointServiceUpdate serve u =
      (.error { code := EInvalid, msg := "invalid update provided" }, []) := by
  simp [NotificationEndpointServiceUpdate, h1, h2]

/-- A concrete update with a bogus mode for the C6 witness. -/
def updExC6 : EndpointUpdate :=
  { UpdateType := "bogus", ID := "020f755c3c082000", Fn := fun _ e => e }

/-- Witness for C6 at a concrete server and a bogus update mode. -/
theorem update_unknown_mode_invalid_witness :
    NotificationEndpointServiceUpdate (fun _ => .obj []) updExC6 =
      (.error { code := EInvalid, msg := "invalid update provided" }, []) :=
  update_unknown_mode_invalid (fun _ => .obj []) updExC6 (by decide) (by decide)

/-! ## C5: the change-set update's frame property -/

/-- Replace an endpoint's base (the only path the update protocol uses to
write shared fields; spec, section 4.1). -/
def Endpoint.setBase : Endpoint → EndpointBase → Endpoint
  | .slack s, b => .slack { s with base := b }
  | .http h, b => .http { h with base := b }

/-- The variant-specific (non-base) data of an endpoint, used to state
frame properties. -/
inductive VariantData where
  | slackData (URL : String) (Token : SecretField)
  | httpData (URL : String) (Headers : List (String × String))
      (Token Username Password : SecretField)
      (AuthMethod Method ContentTemplate : String)
  deriving DecidableEq, Repr

/-- Projection of an endpoint onto its variant-specific data. -/
def Endpoint.variantData : Endpoint → VariantData
  | .slack s => .slackData s.URL s.Token
  | .http h => .httpData h.URL h.Headers h.Token h.Username h.Password
      h.AuthMethod h.Method h.ContentTemplate

/-- `HTTP.Valid`.
Modelled from the spec (section 4.1): base fields must pass and the URL
must be present and parse. -/
def HTTPE.Valid (parseOk : String → Bool) (h : HTTPE) : Option Err :=
  match h.base.Valid with
  | some er => some er
  | none =>
      if h.URL = "" then
        some { code := EInvalid, msg := "http endpoint URL must be provided" }
      else if parseOk h.URL then none
      else some { code := EInvalid, msg := "http endpoint URL is invalid" }

/-- `Valid` lifted to the variant sum. -/
def Endpoint.Valid (parseOk : String → Bool) : Endpoint → Option Err
  | .slack s => s.Valid parseOk
  | .http h => h.Valid parseOk

/-- The change-set mutator.
Modelled from the spec (section 4.3): copy the currently stored variant and
overwrite only the base fields present in the change-set, stamping the
refreshed update timestamp; variant-specific fields are untouched. -/
def applyChangeSet (upd : NotificationEndpointUpdate) (now : String)
    (e : Endpoint) : Endpoint :=
  e.setBase
    { e.base with
      name := upd.Name.getD e.base.name,
      description := upd.Description.getD e.base.description,
      status := upd.Status.getD e.base.status,
      updatedAt := now }

/-- Persist an endpoint under its identifier (the persistence
collaborator's `Put`). -/
def storePut : List (String × Endpoint) → String → Endpoint →
    List (String × Endpoint)
  | [], i, e => [(i, e)]
  | (i0, e0) :: rest, i, e =>
      if i0 = i then (i0, e) :: rest else (i0, e0) :: storePut rest i e

theorem storePut_lookup (store : List (String × Endpoint)) (i : String)
    (e : Endpoint) : (storePut store i e).lookup i = some e := by
  induction store with
  | nil => simp [storePut, List.lookup]
  | cons kv rest ih =>
      obtain ⟨k0, e0⟩ := kv
      by_cases hk : k0 = i
      · subst hk
        simp [storePut, List.lookup]
      · have hbeq : (i == k0) = false := beq_eq_false_iff_ne.mpr (Ne.symm hk)
        simp [storePut, hk, List.lookup, hbeq, ih]

/-- The endpoints service `Update` in change-set mode.
Modelled from the spec (section 4.3): load the current variant (`NotFound`
when the identifier is absent), apply the change-set mutator to it with a
refreshed update timestamp, re-validate (a validation failure aborts and
nothing is committed), and persist. -/
def serviceUpdateChangeSet (parseOk : String → Bool)
    (store : List (String × Endpoint)) (i now : String)
    (upd : NotificationEndpointUpdate) :
    Except Err (List (String × Endpoint) × Endpoint) :=
  match store.lookup i with
  | none => .error { code := ENotFound, msg := "notification endpoint not found" }
  | some cur =>
      let e' := applyChangeSet upd now cur
      match e'.Valid parseOk with
      | some er => .error er
      | none => .ok (storePut store i e', e')

theorem Endpoint.setBase_typeStr (e : Endpoint) (b : EndpointBase) :
    (e.setBase b).typeStr = e.typeStr := by cases e <;> rfl

theorem Endpoint.setBase_variantData (e : Endpoint) (b : EndpointBase) :
    (e.setBase b).variantData = e.variantData := by cases e <;> rfl

theorem Endpoint.setBase_secretKeys (e : Endpoint) (b : EndpointBase) :
    (e.setBase b).secretKeys = e.secretKeys := by cases e <;> rfl

theorem Endpoint.setBase_base (e : Endpoint) (b : EndpointBase) :
    (e.setBase b).base = b := by cases e <;> rfl

/-- C5: a change-set update that specifies only the name leaves the stored
endpoint's type discriminator, all variant-specific fields (URL, headers,
method, ... and the secret fields, hence the secret keys) unchanged; only
the name and the last-update timestamp change, and the updated endpoint is
what the store then holds under the identifier. -/
theorem changeSet_name_only_frame (parseOk : String → Bool)
    (store : List (String × Endpoint)) (i now newName : String)
    (cur : Endpoint) (store2 : List (String × Endpoint)) (e' : Endpoint)
    (hcur : store.lookup i = some cur)
    (hupd : serviceUpdateChangeSet parseOk store i now
        { Name := some newName, Description := none, Status := none } =
      .ok (store2, e')) :
    store2.lookup i = some e' ∧
    e'.typeStr = cur.typeStr ∧
    e'.variantData = cur.variantData ∧
    e'.secretKeys = cur.secretKeys ∧
    e'.base = { cur.base with name := newName, updatedAt := now } := by
  unfold serviceUpdateChangeSet at hupd
  rw [hcur] at hupd
  simp only at hupd
  split at hupd
  · exact absurd hupd (by simp)
  · rw [Except.ok.injEq, Prod.mk.injEq] at hupd
    obtain ⟨h1, h2⟩ := hupd
    subst h1
    subst h2
    refine ⟨storePut_lookup store i _, ?_, ?_, ?_, ?_⟩
    · simp [applyChangeSet, Endpoint.setBase_typeStr]
    · simp [applyChangeSet, Endpoint.setBase_variantData]
    · simp [applyChangeSet, Endpoint.setBase_secretKeys]
    · simp [applyChangeSet, Endpoint.setBase_base]

/-- The stored endpoint the C5 witness starts from (cf. the patch test,
`part_003` lines 617-667). -/
def curC5 : Endpoint :=
  .slack { base := { id := "020f755c3c082000", orgID := "020f755c3c082000",
                     name := "hello", description := "", status := "active",
                     createdAt := "t0", updatedAt := "t0" },
           URL := "http://example.com",
           Token := { key := "", value := none } }

/-- The endpoint after the name-only change-set update of the C5 witness. -/
def eC5 : Endpoint :=
  .slack { base := { id := "020f755c3c082000", orgID := "020f755c3c082000",
                     name := "example", description := "", status := "active",
                     createdAt := "t0", updatedAt := "t1" },
           URL := "http://example.com",
           Token := { key := "", value := none } }

/-- Witness for C5: patching name `hello` to `example` leaves the URL,
type and secrets alone and refreshes only name and the update timestamp. -/
theorem changeSet_name_only_frame_witness :
    [("020f755c3c082000", eC5)].lookup "020f755c3c082000" = some eC5 ∧
    eC5.typeStr = curC5.typeStr ∧
    eC5.variantData = curC5.variantData ∧
    eC5.secretKeys = curC5.secretKeys ∧
    eC5.base = { curC5.base with name := "example", updatedAt := "t1" } :=
  changeSet_name_only_frame (fun _ => true) [("020f755c3c082000", curC5)]
    "020f755c3c082000" "t1" "example" curC5 [("020f755c3c082000", eC5)] eC5
    rfl rfl

/-! ## C10: decoding the list filter from the query string -/

/-- Pagination options (`influxdb.FindOptions`), opaque here. -/
structure FindOptions where
  limit : Nat
  offset : Nat
  descending : Bool
  deriving DecidableEq, Repr

/-- `influxdb.NotificationEndpointFilter`: the `Org` and `OrgID` members are
pointers in Go (`*string` / `*influxdb.ID`), so `none` models a nil
pointer. The zero value of the struct literal built at source line 265
leaves all three at nil. -/
structure NotificationEndpointFilter where
  OrgID : Option String
  Org : Option String
  UserID : Option String
  deriving DecidableEq, Repr

/-- The possible outcomes of `decodeNotificationEndpointFilter`: a filter
with find options, an error — or a runtime panic from dereferencing a nil
pointer. -/
inductive FilterDecodeOutcome where
  | ok (f : NotificationEndpointFilter) (opts : FindOptions)
  | err (e : Err)
  | nilPanic
  deriving DecidableEq, Repr

/-- The `user` parameter step of `decodeNotificationEndpointFilter` (source
lines 291-297): a present `user` parameter is parsed as an identifier, a
parse failure is returned as-is. -/
def decodeFilterUser (parseID : String → Except Err String)
    (q : String → String) (f : NotificationEndpointFilter)
    (opts : FindOptions) : FilterDecodeOutcome :=
  if q "user" ≠ "" then
    match parseID (q "user") with
    | .error er => .err er
    | .ok uid => .ok { f with UserID := some uid } opts
  else .ok f opts

/-- `decodeNotificationEndpointFilter` (source lines 264-300): decode the
find options, then the `orgID` parameter (wrapping a parse failure as
"orgID is invalid"), else — when an `org` name parameter is present — write
it through the filter's `Org` pointer (`*f.Org = orgNameStr`, line 288),
which is nil at that point; then the `user` parameter. `decodeFindOptions`
and `influxdb.IDFromString` are outside this excerpt and are parameters. -/
def decodeNotificationEndpointFilter (decodeFindOpts : Except Err FindOptions)
    (parseID : String → Except Err String) (q : String → String) :
    FilterDecodeOutcome :=
  match decodeFindOpts with
  | .error er => .err er
  | .ok opts =>
      let f0 : NotificationEndpointFilter :=
        { OrgID := none, Org := none, UserID := none }
      if q "orgID" ≠ "" then
        match parseID (q "orgID") with
        | .error _ => .err { code := EInvalid, msg := "orgID is invalid" }
        | .ok oid => decodeFilterUser parseID q { f0 with OrgID := some oid } opts
      else if q "org" ≠ "" then
        match f0.Org with
        | none => .nilPanic
        | some _ => decodeFilterUser parseID q { f0 with Org := some (q "org") } opts
      else decodeFilterUser parseID q f0 opts

/-- The failing query of C10: an `org` name parameter without `orgID`. -/
def qC10 : String → String := fun k => if k = "org" then "org1" else ""

/-- C10: supplying the `org` parameter without `orgID` drives
`decodeNotificationEndpointFilter` into the nil-pointer write
`*f.Org = orgNameStr` — the decoder panics instead of returning a filter or
an error, refuting the claim that every list request is decoded without a
nil-pointer dereference. -/
theorem decodeFilter_org_without_orgID_panics :
    decodeNotificationEndpointFilter
        (.ok { limit := 20, offset := 0, descending := false })
        (fun s => .ok s) qC10 = .nilPanic :=
  rfl
